import Mathlib

/-!
Verification development for the Paci_Backend reconciliation engine.

The definitions below are a shallow embedding, into Lean, of the
extraction-and-reconciliation pipeline of `reconcile_logic.py` and
`reconcile_logic1.py`:

* the line-oriented field accumulators (`extract_expense_data`,
  `extract_statement_entries` and their S3 variants), including faithful
  implementations of the regular expressions they use, translated to
  recursive functions on character lists;
* the deterministic pre-matcher `pre_match_invoices_payments` of
  `reconcile_logic1.py`;
* the LLM-backed reconciliation drivers, with the external LLM modelled as
  an explicit oracle parameter (the LLM response is the only
  non-deterministic input; everything else is pure);
* the count-conservation check of `reconcile_invoices_with_llm`
  (`reconcile_logic.py`, totals section).

Modelling conventions:
* Python floats are modelled as exact rationals; concrete inputs used in
  theorems are chosen so that the float computation in the source agrees
  with exact arithmetic.
* `datetime.date` values flowing through the pre-matcher are modelled as
  day numbers (Int); a difference of one day is a difference of 1.
  Unparseable date strings are modelled as `none`.
* Dates produced by the extractors are modelled as year-month-day triples
  validated exactly as strptime validates them.
* Reading PDFs from disk or S3 is out of scope (external collaborators per
  the design); the extractors are embedded from their per-line loops, which
  consume the list of stripped non-empty lines.
-/

namespace Paci

/- The rational arithmetic of the Batteries core is sealed against
unfolding; unsealing lets concrete runs of the embedded pipeline evaluate
inside `decide` and `rfl` proofs. -/
unseal Rat.sub Rat.mul Rat.inv Rat.add Rat.ofScientific

/-! ## Character and string utilities -/

/-- Word characters, Python regex class backslash-w: alphanumerics and underscore. -/
def isWordChar (c : Char) : Bool := c.isAlphanum || c = '_'

/-- Convert a list of decimal digit characters to a natural number. -/
def digitsToNat (cs : List Char) : Nat :=
  cs.foldl (fun n c => 10 * n + (c.toNat - '0'.toNat)) 0

/-- Python substring containment `needle in hay` on character lists. -/
def listIsSub (n : List Char) : List Char → Bool
  | [] => n.isEmpty
  | c :: t => n.isPrefixOf (c :: t) || listIsSub n t

/-- Python `s.lower()` (ASCII case folding, which is all the source needs). -/
def lowerStr (s : String) : String := String.mk (s.data.map Char.toLower)

/-- Python truthiness of an optional string: `None` and the empty string are falsy. -/
def strTruthy : Option String → Bool
  | none => false
  | some s => !(s = "")

/-- Python `s.strip()` on character lists: whitespace removed from both ends. -/
def stripChars (cs : List Char) : List Char :=
  ((cs.dropWhile Char.isWhitespace).reverse.dropWhile Char.isWhitespace).reverse

/-! ## Calendar dates

`parse_date` in the source returns a `datetime.date`; construction fails
(raising, caught and turned into `None`) for out-of-range components.  We
model dates as validated year-month-day triples. -/

structure YMD where
  year : Nat
  month : Nat
  day : Nat
deriving DecidableEq, Repr

/-- Gregorian leap year test, as used by `datetime.date`. -/
def isLeap (y : Nat) : Bool := y % 4 = 0 && (y % 100 ≠ 0 || y % 400 = 0)

/-- Days in a month, as validated by `datetime.date`. -/
def daysInMonth (y m : Nat) : Nat :=
  if m = 2 then (if isLeap y then 29 else 28)
  else if m = 4 || m = 6 || m = 9 || m = 11 then 30
  else 31

/-- Construction of a date with exactly the validation `strptime` plus
`datetime.date` perform: year at least 1, month 1..12, day 1..month length. -/
def mkDate (y m d : Nat) : Option YMD :=
  if 1 ≤ y ∧ 1 ≤ m ∧ m ≤ 12 ∧ 1 ≤ d ∧ d ≤ daysInMonth y m then some ⟨y, m, d⟩ else none

/-- Month number of a lowercased three-letter abbreviation (strptime percent-b,
which compares case-insensitively). -/
def monthOfAbbrev (cs : List Char) : Option Nat :=
  if cs = "jan".data then some 1 else if cs = "feb".data then some 2
  else if cs = "mar".data then some 3 else if cs = "apr".data then some 4
  else if cs = "may".data then some 5 else if cs = "jun".data then some 6
  else if cs = "jul".data then some 7 else if cs = "aug".data then some 8
  else if cs = "sep".data then some 9 else if cs = "oct".data then some 10
  else if cs = "nov".data then some 11 else if cs = "dec".data then some 12
  else none

/-- Month number of a lowercased full month name (strptime percent-B). -/
def monthOfFull (cs : List Char) : Option Nat :=
  if cs = "january".data then some 1 else if cs = "february".data then some 2
  else if cs = "march".data then some 3 else if cs = "april".data then some 4
  else if cs = "may".data then some 5 else if cs = "june".data then some 6
  else if cs = "july".data then some 7 else if cs = "august".data then some 8
  else if cs = "september".data then some 9 else if cs = "october".data then some 10
  else if cs = "november".data then some 11 else if cs = "december".data then some 12
  else none

/-! ## The three date patterns of `parse_date`

Pattern 1 is `dd-Mon-yyyy` (day one or two digits, greedy), pattern 2 is
`dd/mm/yyyy` (day and month one or two digits, greedy), pattern 3 is
`Month dd, yyyy`.  Each `patNAt` function recognises the pattern anchored at
the head of the character list, mirroring the regex with its backtracking on
the one-or-two-digit groups, and returns the parsed components; each
`searchPatN` function scans left to right for the leftmost match, mirroring
`re.search`. -/

/-- Exactly four leading digits. -/
def fourDigitsAt : List Char → Option Nat
  | a :: b :: c :: d :: _ =>
    if a.isDigit && b.isDigit && c.isDigit && d.isDigit
    then some (digitsToNat [a, b, c, d]) else none
  | _ => none

/-- Tail of pattern 1 after the day digits: a dash, three letters, a dash, four digits. -/
def pat1TailAt : List Char → Option (List Char × Nat)
  | '-' :: a :: b :: c :: '-' :: rest =>
    if a.isAlpha && b.isAlpha && c.isAlpha then
      match fourDigitsAt rest with
      | some y => some ([a, b, c], y)
      | none => none
    else none
  | _ => none

/-- Pattern 1 anchored at the head: day (two digits preferred, then one),
month letters, year.  Returns day, month letters, year. -/
def pat1At : List Char → Option (Nat × List Char × Nat)
  | c0 :: c1 :: rest =>
    if c0.isDigit then
      if c1.isDigit then
        match pat1TailAt rest with
        | some (m, y) => some (digitsToNat [c0, c1], m, y)
        | none =>
          match pat1TailAt (c1 :: rest) with
          | some (m, y) => some (digitsToNat [c0], m, y)
          | none => none
      else
        match pat1TailAt (c1 :: rest) with
        | some (m, y) => some (digitsToNat [c0], m, y)
        | none => none
    else none
  | _ => none

/-- Leftmost match of pattern 1 (`re.search` semantics). -/
def searchPat1 : List Char → Option (Nat × List Char × Nat)
  | [] => none
  | c :: rest =>
    match pat1At (c :: rest) with
    | some r => some r
    | none => searchPat1 rest

/-- Tail of pattern 2 after the day digits: a slash, month (two digits
preferred, then one), a slash, four digits. -/
def pat2TailAt : List Char → Option (Nat × Nat)
  | '/' :: m0 :: rest =>
    if m0.isDigit then
      match rest with
      | m1 :: '/' :: r2 =>
        if m1.isDigit then
          match fourDigitsAt r2 with
          | some y => some (digitsToNat [m0, m1], y)
          | none => none
        else
          match r2 with
          | _ => none
      | '/' :: r2 =>
        match fourDigitsAt r2 with
        | some y => some (digitsToNat [m0], y)
        | none => none
      | _ => none
    else none
  | _ => none

/-- Pattern 2 anchored at the head. Returns day, month, year. -/
def pat2At : List Char → Option (Nat × Nat × Nat)
  | c0 :: c1 :: rest =>
    if c0.isDigit then
      if c1.isDigit then
        match pat2TailAt rest with
        | some (m, y) => some (digitsToNat [c0, c1], m, y)
        | none =>
          match pat2TailAt (c1 :: rest) with
          | some (m, y) => some (digitsToNat [c0], m, y)
          | none => none
      else
        match pat2TailAt (c1 :: rest) with
        | some (m, y) => some (digitsToNat [c0], m, y)
        | none => none
    else none
  | _ => none

/-- Leftmost match of pattern 2. -/
def searchPat2 : List Char → Option (Nat × Nat × Nat)
  | [] => none
  | c :: rest =>
    match pat2At (c :: rest) with
    | some r => some r
    | none => searchPat2 rest

/-- Day-comma-space-year tail of pattern 3: one or two digits (two preferred),
a comma, a space, four digits. -/
def pat3TailAt : List Char → Option (Nat × Nat)
  | d0 :: rest =>
    if d0.isDigit then
      match rest with
      | d1 :: ',' :: ' ' :: r2 =>
        if d1.isDigit then
          match fourDigitsAt r2 with
          | some y => some (digitsToNat [d0, d1], y)
          | none => none
        else none
      | ',' :: ' ' :: r2 =>
        match fourDigitsAt r2 with
        | some y => some (digitsToNat [d0], y)
        | none => none
      | _ => none
    else none
  | _ => none

/-- Pattern 3 anchored at the head: a word-character run, a space, then the
day-comma-year tail.  Returns the word run and day, year.  Shrinking the
greedy word run cannot help (the character after a shorter run is a word
character, never the required space), so no backtracking is needed. -/
def pat3At (cs : List Char) : Option (List Char × Nat × Nat) :=
  let run := cs.takeWhile isWordChar
  if run.isEmpty then none
  else
    match cs.drop run.length with
    | ' ' :: rest =>
      match pat3TailAt rest with
      | some (d, y) => some (run, d, y)
      | none => none
    | _ => none

/-- Leftmost match of pattern 3. -/
def searchPat3 : List Char → Option (List Char × Nat × Nat)
  | [] => none
  | c :: rest =>
    match pat3At (c :: rest) with
    | some r => some r
    | none => searchPat3 rest

/-- Embedding of `parse_date` (both reconcile modules define it identically):
search the three patterns in order on the stripped string; parse the first
hit with the corresponding strptime format; any parse failure yields `None`
without falling through to later patterns.  The source dispatches on whether
the matched text contains a dash or a slash, which for these patterns is
equivalent to dispatching on which pattern matched. -/
def parse_date (s : String) : Option YMD :=
  let cs := stripChars s.data
  match searchPat1 cs with
  | some (d, mon, y) =>
    match monthOfAbbrev (mon.map Char.toLower) with
    | some m => mkDate y m d
    | none => none
  | none =>
    match searchPat2 cs with
    | some (d, m, y) => mkDate y m d
    | none =>
      match searchPat3 cs with
      | some (w, d, y) =>
        match monthOfFull (w.map Char.toLower) with
        | some m => mkDate y m d
        | none => none
      | none => none

/-! ## Amount, category and transaction-type detectors -/

/-- A digit-or-comma character, the class of the integer part of the amount
patterns. -/
def isDigitComma (c : Char) : Bool := c.isDigit || c = ','

/-- Rational value of an amount: integer-part characters (commas dropped, as
by the replace call before float) plus two decimal digits. -/
def amountVal (intPart : List Char) (d1 d2 : Char) : ℚ :=
  (digitsToNat (intPart.filter fun c => c ≠ ',') : ℚ) + (digitsToNat [d1, d2] : ℚ) / 100

/-- A number of shape digits-and-commas, dot, exactly two digits, anchored at
the head.  Returns the value and the remaining characters after the two
decimals. -/
def numAt (cs : List Char) : Option (ℚ × List Char) :=
  let run := cs.takeWhile isDigitComma
  if run.isEmpty then none
  else
    match cs.drop run.length with
    | '.' :: d1 :: d2 :: rest =>
      if d1.isDigit && d2.isDigit then some (amountVal run d1 d2, rest) else none
    | _ => none

/-- Currency tokens of the expense amount pattern, in alternation order. -/
def currencyToks : List (List Char) :=
  ["inr".data, "rs".data, ['₹'], "usd".data, ['€'], ['£']]

/-- Match one of the currency tokens at the head, returning the rest. -/
def currAt (cs : List Char) : Option (List Char) :=
  (currencyToks.find? fun t => t.isPrefixOf cs).map fun t => cs.drop t.length

/-- Skip regex whitespace. -/
def skipWs (cs : List Char) : List Char := cs.dropWhile Char.isWhitespace

/-- The expense amount pattern anchored at one position: either a currency
token, optional whitespace and a number (first alternative, captured in group
one), or a bare number (second alternative; its optional trailing currency
token does not affect the captured value). -/
def expenseAmountAt (cs : List Char) : Option ℚ :=
  match currAt cs with
  | some rest =>
    match numAt (skipWs rest) with
    | some (q, _) => some q
    | none =>
      match numAt cs with
      | some (q, _) => some q
      | none => none
  | none =>
    match numAt cs with
    | some (q, _) => some q
    | none => none

/-- `re.search` of the expense amount pattern: leftmost position wins; the
source applies it to the lowercased line. -/
def searchExpenseAmount : List Char → Option ℚ
  | [] => none
  | c :: rest =>
    match expenseAmountAt (c :: rest) with
    | some q => some q
    | none => searchExpenseAmount rest

/-- Amount detected on a line by `extract_expense_data` (applied to the
lowercased line, as in the source). -/
def amountOfExpense (line : String) : Option ℚ :=
  searchExpenseAmount (lowerStr line).data

/-- Category vocabulary of `extract_expense_data` (exact line membership). -/
def expenseCategories : List String :=
  ["Travel", "Meals", "Utilities", "Office Supplies",
   "Entertainment", "Software", "Hardware", "Miscellaneous"]

/-- Transaction-type keywords of `extract_statement_entries`, in alternation
order. -/
def typeKeywords : List String :=
  ["debit", "credit", "payment", "deposit", "withdrawal", "fee", "charge", "refund"]

/-- Leftmost occurrence of any type keyword (alternation tried in order at
each position), on the lowercased line. -/
def searchTypeKw : List Char → Option String
  | [] => none
  | c :: rest =>
    match typeKeywords.find? fun k => k.data.isPrefixOf (c :: rest) with
    | some k => some k
    | none => searchTypeKw rest

/-- Transaction type detected on a line by `extract_statement_entries`. -/
def typeOfLine (line : String) : Option String := searchTypeKw (lowerStr line).data

/-- Currency symbol class of the statement amount pattern. -/
def isCurrencySym (c : Char) : Bool := c = '$' || c = '₹' || c = '€' || c = '£'

/-- The statement amount pattern at one position: optional minus, whitespace,
optional currency symbol, whitespace, a digits-and-commas run, dot, two
digits, then a word boundary.  Returns `some none` when the pattern matched
but the captured text contains a currency symbol (float fails after the
replace calls, and the exception is swallowed), `some (some q)` on a parsed
amount. -/
def stmtAmountAt (cs : List Char) : Option (Option ℚ) :=
  let (neg, cs1) := match cs with
    | '-' :: t => (true, t)
    | _ => (false, cs)
  let cs2 := skipWs cs1
  let (curr, cs3) := match cs2 with
    | c :: t => if isCurrencySym c then (true, t) else (false, cs2)
    | [] => (false, cs2)
  let cs4 := skipWs cs3
  match numAt cs4 with
  | some (q, rest) =>
    let boundary := match rest with
      | [] => true
      | c :: _ => !isWordChar c
    if boundary then
      if curr then some none
      else some (some (if neg then -q else q))
    else none
  | none => none

/-- `re.search` of the statement amount pattern (first match only; if its
captured text cannot be parsed, no later position is tried — mirroring the
try-except around the single search result). -/
def searchStmtAmount : List Char → Option (Option ℚ)
  | [] => none
  | c :: rest =>
    match stmtAmountAt (c :: rest) with
    | some r => some r
    | none => searchStmtAmount rest

/-- Amount update produced by a line in `extract_statement_entries`: `some q`
exactly when the pattern matched and parsing succeeded. -/
def amountOfStmt (line : String) : Option ℚ :=
  match searchStmtAmount line.data with
  | some (some q) => some q
  | _ => none

/-- Category vocabulary of `extract_statement_entries`; the hit test is
case-insensitive substring containment of any keyword. -/
def stmtCategories : List String :=
  ["Travel", "Meals", "Utilities", "Office Supplies", "Transfer", "Payment", "Service"]

/-- The statement category test: any keyword, lowercased, occurs in the
lowercased line. -/
def stmtCategoryHit (line : String) : Bool :=
  stmtCategories.any fun cat => listIsSub (lowerStr cat).data (lowerStr line).data

/-! ## Field accumulator: `extract_expense_data` (reconcile_logic.py)

The PDF reading is external; the embedding starts from the list of stripped
non-empty lines (including the PAGE_SEPARATOR tokens the source inserts and
then skips). -/

/-- Python truthiness of an optional rational: `None` and `0.0` are falsy. -/
def ratTruthy : Option ℚ → Bool
  | none => false
  | some q => !(q = 0)

structure ExpState where
  date : Option YMD
  description : Option String
  category : Option String
  amount : Option ℚ
deriving DecidableEq, Repr

def initExpState : ExpState := ⟨none, none, none, none⟩

structure ExpEntry where
  file : String
  date : Option YMD
  description : Option String
  category : Option String
  amount : Option ℚ
  parseFailed : Bool
  reason : String
deriving DecidableEq, Repr

/-- The date test of `extract_expense_data`: `re.match` (prefix-anchored) of
pattern 1 or pattern 2. -/
def dateMatchExpense (line : String) : Bool :=
  (pat1At line.data).isSome || (pat2At line.data).isSome

/-- `all(current_entry.values())`: every dict value is truthy (the file name,
the date object, the two strings and the amount; an amount of 0.0 is falsy). -/
def expenseComplete (file : String) (st : ExpState) : Bool :=
  !(file = "") && st.date.isSome && strTruthy st.description &&
    strTruthy st.category && ratTruthy st.amount

def mkExpEntry (file : String) (st : ExpState) : ExpEntry :=
  ⟨file, st.date, st.description, st.category, st.amount, false, ""⟩

/-- One line of the `extract_expense_data` loop.  On a date-matching line the
complete in-progress record is emitted and only `date` and `description` are
reassigned; the amount match then (unconditionally) overwrites the amount;
finally the category test, with the fallback-description branch in its
else-arm. -/
def expenseStep (file : String) (acc : List ExpEntry × ExpState) (line : String) :
    List ExpEntry × ExpState :=
  let (entries, st) := acc
  if line = "PAGE_SEPARATOR" then (entries, st)
  else
    let (entries1, st1) :=
      if dateMatchExpense line then
        (if expenseComplete file st then entries ++ [mkExpEntry file st] else entries,
         { st with date := parse_date line, description := none })
      else (entries, st)
    let st2 :=
      match amountOfExpense line with
      | some q => { st1 with amount := some q }
      | none => st1
    let st3 :=
      if line ∈ expenseCategories then { st2 with category := some line }
      else if st2.date.isSome && !strTruthy st2.description then
        { st2 with description := some line }
      else st2
    (entries1, st3)

/-- `extract_expense_data` from the list of lines: fold the per-line step,
emit the final record when complete, and fall back to the single synthetic
parse-failure record when nothing was emitted. -/
def extract_expense_data (file : String) (lines : List String) : List ExpEntry :=
  let (entries, st) := lines.foldl (expenseStep file) ([], initExpState)
  let entries :=
    if expenseComplete file st then entries ++ [mkExpEntry file st] else entries
  if entries = [] then
    [⟨file, none, none, none, none, true,
      "No complete expense entries found (missing one or more of date/description/category/amount)"⟩]
  else entries

/-! ## Field accumulator: `extract_statement_entries` (reconcile_logic.py) -/

structure StmtState where
  date : Option YMD
  description : Option String
  category : Option String
  txnType : Option String
  amount : Option ℚ
deriving DecidableEq, Repr

def initStmtState : StmtState := ⟨none, none, none, none, none⟩

structure StmtEntry where
  file : String
  date : Option YMD
  description : Option String
  category : Option String
  txnType : Option String
  amount : Option ℚ
  parseFailed : Bool
  reason : String
deriving DecidableEq, Repr

/-- ISO date `yyyy-mm-dd` anchored at the head (the second `re.match`
alternative of `extract_statement_entries`). -/
def isoDateAt : List Char → Bool
  | y0 :: y1 :: y2 :: y3 :: '-' :: m0 :: m1 :: '-' :: d0 :: d1 :: _ =>
    y0.isDigit && y1.isDigit && y2.isDigit && y3.isDigit &&
      m0.isDigit && m1.isDigit && d0.isDigit && d1.isDigit
  | _ => false

/-- The date test of `extract_statement_entries`: pattern 1 or the ISO
pattern, prefix-anchored. -/
def dateMatchStmt (line : String) : Bool :=
  (pat1At line.data).isSome || isoDateAt line.data

/-- `all(v for k, v in current_entry.items() if k != "file")`: every field
except the file name is truthy (an amount of 0.0 is falsy here too). -/
def stmtComplete (st : StmtState) : Bool :=
  st.date.isSome && strTruthy st.description && strTruthy st.category &&
    strTruthy st.txnType && ratTruthy st.amount

def mkStmtEntry (file : String) (st : StmtState) : StmtEntry :=
  ⟨file, st.date, st.description, st.category, st.txnType, st.amount, false, ""⟩

/-- One line of the `extract_statement_entries` loop.  On a date-matching
line the complete in-progress record is emitted and every field is
reassigned (`current_entry.update` with all five keys); then the type,
amount and category detectors run on the same line. -/
def stmtStep (file : String) (acc : List StmtEntry × StmtState) (line : String) :
    List StmtEntry × StmtState :=
  let (entries, st) := acc
  let (entries1, st1) :=
    if dateMatchStmt line then
      (if stmtComplete st then entries ++ [mkStmtEntry file st] else entries,
       (⟨parse_date line, none, none, none, none⟩ : StmtState))
    else (entries, st)
  let st2 :=
    match typeOfLine line with
    | some t => { st1 with txnType := some t }
    | none => st1
  let st3 :=
    match amountOfStmt line with
    | some q => { st2 with amount := some q }
    | none => st2
  let st4 :=
    if stmtCategoryHit line then { st3 with category := some line }
    else if st3.date.isSome && !strTruthy st3.description then
      { st3 with description := some line }
    else st3
  (entries1, st4)

/-- `extract_statement_entries` from the list of lines. -/
def extract_statement_entries (file : String) (lines : List String) : List StmtEntry :=
  let (entries, st) := lines.foldl (stmtStep file) ([], initStmtState)
  let entries :=
    if stmtComplete st then entries ++ [mkStmtEntry file st] else entries
  if entries = [] then
    [⟨file, none, none, none, none, none, true, "No complete statement entries found"⟩]
  else entries

/-! ## S3 field accumulators (reconcile_logic.py, alternate/preview logic)

The S3 download and PDF-to-lines conversion are external; the embeddings
start from the line list.  Unlike the accumulators above, these loops are a
single if/elif chain, emit a record as soon as the in-progress fields are
all satisfied (resetting the fields), and test completeness differently on
the two sides: the expense side uses `all([date, description, category,
amount])` (truthiness, so amount 0.0 blocks emission) while the statement
side uses `amount is not None`. -/

/-- The S3 expense amount condition: `inr` then whitespace then a plain
number with two decimals (no commas), searched in the lowercased line. -/
def s3InrHitAt (cs : List Char) : Bool :=
  match cs with
  | 'i' :: 'n' :: 'r' :: rest =>
    let cs2 := skipWs rest
    let run := cs2.takeWhile Char.isDigit
    if run.isEmpty then false
    else
      match cs2.drop run.length with
      | '.' :: d1 :: d2 :: _ => d1.isDigit && d2.isDigit
      | _ => false
  | _ => false

/-- Search for the S3 expense amount condition anywhere in the line. -/
def s3InrHit : List Char → Bool
  | [] => false
  | c :: rest => s3InrHitAt (c :: rest) || s3InrHit rest

/-- The S3 amount extraction `([0-9]+\.[0-9]{2})` at one position: plain
digits, a dot, exactly two digits (no commas, no boundary requirement). -/
def s3NumAt (cs : List Char) : Option ℚ :=
  let run := cs.takeWhile Char.isDigit
  if run.isEmpty then none
  else
    match cs.drop run.length with
    | '.' :: d1 :: d2 :: _ =>
      if d1.isDigit && d2.isDigit then some (amountVal run d1 d2) else none
    | _ => none

/-- Leftmost S3 amount in the original (non-lowercased) line. -/
def searchS3Num : List Char → Option ℚ
  | [] => none
  | c :: rest =>
    match s3NumAt (c :: rest) with
    | some q => some q
    | none => searchS3Num rest

structure S3ExpState where
  date : Option YMD
  description : Option String
  category : Option String
  amount : Option ℚ
deriving DecidableEq, Repr

structure S3ExpEntry where
  file : String
  date : Option YMD
  description : Option String
  category : Option String
  amount : Option ℚ
  parseFailed : Bool
  reason : String
deriving DecidableEq, Repr

/-- Completeness of the S3 expense record: `all([date, description,
category, amount])` — plain truthiness, so a 0.0 amount is incomplete. -/
def s3ExpComplete (st : S3ExpState) : Bool :=
  st.date.isSome && strTruthy st.description && strTruthy st.category &&
    ratTruthy st.amount

/-- The if/elif field-update chain of the `extract_expense_data_from_s3`
loop body. -/
def s3ExpFieldUpdate (st : S3ExpState) (line : String) : S3ExpState :=
  if (pat1At line.data).isSome then { st with date := parse_date line }
  else if s3InrHit (lowerStr line).data then
    match searchS3Num line.data with
    | some q => { st with amount := some q }
    | none => st
  else if line ∈ ["Travel", "Meals", "Utilities", "Office Supplies"] then
    { st with category := some line }
  else if st.date.isSome && !strTruthy st.description then
    { st with description := some line }
  else st

/-- One line of the `extract_expense_data_from_s3` loop: the field-update
chain followed by the emit-and-reset check. -/
def s3ExpenseStep (file : String) (acc : List S3ExpEntry × S3ExpState) (line : String) :
    List S3ExpEntry × S3ExpState :=
  let st1 := s3ExpFieldUpdate acc.2 line
  if s3ExpComplete st1 then
    (acc.1 ++ [⟨file, st1.date, st1.description, st1.category, st1.amount, false, ""⟩],
     ⟨none, none, none, none⟩)
  else (acc.1, st1)

/-- `extract_expense_data_from_s3` from the line list; the synthetic failure
record carries the leftover amount and description, as in the source. -/
def extract_expense_data_from_s3 (file : String) (lines : List String) : List S3ExpEntry :=
  let (entries, st) := lines.foldl (s3ExpenseStep file) ([], ⟨none, none, none, none⟩)
  if entries = [] then
    [⟨file, none,
      some (if strTruthy st.description then (st.description).getD "" else "Unknown"),
      none, st.amount, true, "Could not extract complete expense entry"⟩]
  else entries

structure S3StmtState where
  date : Option YMD
  description : Option String
  category : Option String
  txnType : Option String
  amount : Option ℚ
deriving DecidableEq, Repr

structure S3StmtEntry where
  date : Option YMD
  description : Option String
  category : Option String
  txnType : Option String
  amount : Option ℚ
  parseFailed : Bool
  file : String
  reason : String
deriving DecidableEq, Repr

/-- The S3 statement amount test: `re.match(r"-?[0-9]+\.[0-9]{2}$", line)` —
the whole line is an optionally negated plain decimal with two fraction
digits. -/
def s3FullAmount (line : String) : Option ℚ :=
  let (neg, cs) := match line.data with
    | '-' :: t => (true, t)
    | cs => (false, cs)
  let run := cs.takeWhile Char.isDigit
  if run.isEmpty then none
  else
    match cs.drop run.length with
    | ['.', d1, d2] =>
      if d1.isDigit && d2.isDigit then
        some (if neg then -(amountVal run d1 d2) else amountVal run d1 d2)
      else none
    | _ => none

/-- Completeness of the S3 statement record: `all([date, description,
category, type_, amount is not None])` — the amount only has to be present,
0.0 is allowed. -/
def s3StmtComplete (st : S3StmtState) : Bool :=
  st.date.isSome && strTruthy st.description && strTruthy st.category &&
    strTruthy st.txnType && st.amount.isSome

/-- One line of the `extract_statement_entries_from_s3` loop. -/
def s3StmtStep (acc : List S3StmtEntry × S3StmtState) (line : String) :
    List S3StmtEntry × S3StmtState :=
  let (entries, st) := acc
  let st1 :=
    if (pat1At line.data).isSome then { st with date := parse_date line }
    else if line ∈ ["Travel", "Meals", "Utilities", "Office Supplies", "Cash",
        "Personal", "Charges"] then
      { st with category := some line }
    else if lowerStr line ∈ ["debit", "credit", "fee"] then
      { st with txnType := some (lowerStr line) }
    else
      match s3FullAmount line with
      | some q => { st with amount := some q }
      | none =>
        if st.date.isSome && !strTruthy st.description then
          { st with description := some line }
        else st
  if s3StmtComplete st1 then
    (entries ++ [⟨st1.date, st1.description, st1.category, st1.txnType, st1.amount,
       false, "", ""⟩],
     ⟨none, none, none, none, none⟩)
  else (entries, st1)

/-- `extract_statement_entries_from_s3` from the line list. -/
def extract_statement_entries_from_s3 (file : String) (lines : List String) :
    List S3StmtEntry :=
  let (entries, _) := lines.foldl s3StmtStep ([], ⟨none, none, none, none, none⟩)
  if entries = [] then
    [⟨none, none, none, none, none, true, file, "Could not extract complete statement entry"⟩]
  else entries

/-! ## Deterministic pre-matcher (`pre_match_invoices_payments`, reconcile_logic1.py)

Records entering the pre-matcher are the dicts produced upstream.  Their
date values are modelled as day numbers (Int), with `none` standing for a
date string that none of the accepted formats can parse (the source then
executes `continue`: an invoice with such a date is skipped, a payment with
such a date is skipped for every invoice).  Amounts are exact rationals. -/

structure PRec where
  date : Option Int
  description : String
  amount : ℚ
  parseFailed : Bool
deriving DecidableEq, Repr

/-- An element of `matched_pairs`: the source records only the payment side
fields date, amount, description. -/
structure MPair where
  date : Option Int
  amount : ℚ
  description : String
deriving DecidableEq, Repr

/-- Character class of the invoice-number pattern `INV-[A-Z0-9-]+`. -/
def isInvNoChar (c : Char) : Bool :=
  ('A' ≤ c && c ≤ 'Z') || c.isDigit || c = '-'

/-- The invoice-number pattern anchored at the head: literal `INV-` followed
by a non-empty greedy run of the class. -/
def invNoAt (cs : List Char) : Option (List Char) :=
  if "INV-".data.isPrefixOf cs then
    let run := (cs.drop 4).takeWhile isInvNoChar
    if run.isEmpty then none else some ("INV-".data ++ run)
  else none

/-- Leftmost invoice-number match. -/
def searchInvNo : List Char → Option (List Char)
  | [] => none
  | c :: rest =>
    match invNoAt (c :: rest) with
    | some r => some r
    | none => searchInvNo rest

/-- `extract_invoice_no`: the first `INV-[A-Z0-9-]+` substring of the
description, if any. -/
def extractInvoiceNo (desc : String) : Option (List Char) := searchInvNo desc.data

/-- The `match_key` of a payment, `f"{amount}-{date}-{description}"` in the
source: modelled as the triple of the raw field values. -/
def payKey (p : PRec) : ℚ × Option Int × String := (p.amount, p.date, p.description)

/-- Python `abs` on rationals, written so that it evaluates by kernel
reduction. -/
def ratAbs (q : ℚ) : ℚ := if q < 0 then -q else q

/-- The amount guard of the pre-matcher: the source skips a candidate when
`abs(inv_amt - pay_amt) > 0.01`, so a pair passes exactly when the absolute
difference is at most 0.01. -/
def amountClose (a b : ℚ) : Bool := !(ratAbs (a - b) > 1 / 100)

/-- State threaded through the pre-match loops: `matched_pairs`,
`matched_invoice_idxs`, `matched_payment_idxs` and `matched_desc_set`. -/
structure PMState where
  pairs : List MPair
  invIdxs : Finset ℕ
  payIdxs : Finset ℕ
  keys : Finset (ℚ × Option Int × String)
deriving DecidableEq

/-- Acceptance test for payment candidate `(j, pay)` against the current
invoice, mirroring the body of the inner loop in source order: skip consumed
payments, skip unparseable payment dates, skip on the amount guard, require
the invoice number as a substring of the payment description, require the
date window, and require a fresh match key.  The inner loop mutates nothing
before its `break`, so it selects exactly the first candidate passing this
test. -/
def payOk (payIdxs : Finset ℕ) (keys : Finset (ℚ × Option Int × String))
    (invNo : Option (List Char)) (invAmt : ℚ) (invDate : Int) (window : ℕ)
    (jp : ℕ × PRec) : Bool :=
  decide (jp.1 ∉ payIdxs) &&
    match jp.2.date with
    | none => false
    | some payDate =>
      amountClose invAmt jp.2.amount &&
        (match invNo with
         | none => false
         | some no => listIsSub no jp.2.description.data) &&
        decide ((payDate - invDate).natAbs ≤ window) &&
        decide (payKey jp.2 ∉ keys)

/-- One iteration of the outer loop of `pre_match_invoices_payments`: for
invoice `i`, scan the payments in order and, on the first acceptable
candidate, record the match and consume both records. -/
def preMatchStep (payments : List PRec) (window : ℕ) (st : PMState)
    (ip : ℕ × PRec) : PMState :=
  let invNo := extractInvoiceNo ip.2.description
  match ip.2.date with
  | none => st
  | some d =>
    match payments.enum.find? (payOk st.payIdxs st.keys invNo ip.2.amount d window) with
    | none => st
    | some (j, pay) =>
      ⟨st.pairs ++ [⟨pay.date, pay.amount, pay.description⟩],
       insert ip.1 st.invIdxs, insert j st.payIdxs, insert (payKey pay) st.keys⟩

/-- The five components returned by `pre_match_invoices_payments`. -/
structure PMResult where
  matchedPairs : List MPair
  unmatchedInvoices : List PRec
  unmatchedPayments : List PRec
  matchedInvoiceIdxs : Finset ℕ
  matchedPaymentIdxs : Finset ℕ
deriving DecidableEq

/-- Embedding of `pre_match_invoices_payments`: greedy first-fit scan with
duplicate-key suppression, then the unmatched lists are the inputs at
non-consumed indices, in input order. -/
def pre_match_invoices_payments (invoices payments : List PRec) (window : ℕ) :
    PMResult :=
  let final := invoices.enum.foldl (preMatchStep payments window) ⟨[], ∅, ∅, ∅⟩
  ⟨final.pairs,
   (invoices.enum.filter fun p => decide (p.1 ∉ final.invIdxs)).map Prod.snd,
   (payments.enum.filter fun p => decide (p.1 ∉ final.payIdxs)).map Prod.snd,
   final.invIdxs, final.payIdxs⟩

/-! ## Invoice reconciliation driver (`reconcile_invoices_with_llm`, reconcile_logic1.py)

The driver filters out parse-failed records, runs the pre-matcher with a
three-day window, and consults the external LLM only when some invoice is
left unmatched.  The LLM is modelled as an oracle from the unmatched lists
to a matched list; it is the only non-deterministic input.  The source then
sets `all_matched = pre_matched + response["matched"]` (note that in the
skip branch `response["matched"]` was itself set to `pre_matched`). -/

def reconcile_invoices_matched (oracle : List PRec → List PRec → List MPair)
    (invoices statements : List PRec) : List MPair :=
  let validInvoices := invoices.filter fun r => !r.parseFailed
  let validStatements := statements.filter fun r => !r.parseFailed
  let res := pre_match_invoices_payments validInvoices validStatements 3
  let llmMatched :=
    if res.matchedPairs.length = validInvoices.length ∨ res.unmatchedInvoices = []
    then res.matchedPairs
    else oracle res.unmatchedInvoices res.unmatchedPayments
  res.matchedPairs ++ llmMatched

/-! ## Savings reconciliation driver (`reconcile_with_llm`, reconcile_logic.py)

Used for claim C7: when either side has no valid (non-parse-failed) record,
the function returns an empty matched frame and the not-enough-data message
without consulting the LLM; otherwise it runs the LLM (oracle), appends the
parse-failed expenses to the unmatched bucket, filters duplicates out of it,
and renders the summary. -/

/-- Entries of the LLM response lists are free-form dicts rendered to the
summary through their date, amount, description fields; modelled as string
triples (the source stringifies them for the report anyway). -/
structure OEntry where
  date : String
  amount : String
  description : String
deriving DecidableEq, Repr

/-- The LLM response shape for `reconcile_with_llm`. -/
structure WResp where
  matched : List OEntry
  unmatchedExpenses : List OEntry
  unmatchedCharges : List OEntry
  reimbursements : List OEntry
  duplicatesExpenses : List OEntry
  duplicatesStatements : List OEntry
deriving DecidableEq

/-- The synthetic unmatched entry appended for each parse-failed expense. -/
def failedUnmatched (e : PRec) : OEntry :=
  ⟨"UNKNOWN DATE", toString e.amount, e.description ++ " (parsing failed)"⟩

/-- One bullet line of the text report. -/
def bulletLine (e : OEntry) : String :=
  "  • ₹" ++ e.amount ++ " on " ++ e.date ++ " - " ++ e.description

/-- `log_section`: a titled block, only when the list is non-empty. -/
def logSection (title : String) (entries : List OEntry) : List String :=
  if entries = [] then [] else title :: entries.map bulletLine ++ [""]

/-- The summary text of `reconcile_with_llm` (sections and totals). -/
def savingsSummary (matched unmatched unmatchedCharges reimbursements dupExp dupStmt :
    List OEntry) : String :=
  String.intercalate "\n"
    (logSection "✅ Matched:" matched ++
     logSection "❌ Unmatched Expenses:" unmatched ++
     logSection "❌ Unmatched Charges:" unmatchedCharges ++
     logSection "🟢 Reimbursements:" reimbursements ++
     logSection "🔁 Duplicates in Expenses:" dupExp ++
     logSection "🔁 Duplicates in Statements:" dupStmt ++
     ["=== Totals ===",
      "✅ Total Matched: " ++ toString matched.length,
      "❌ Total Unmatched Expenses: " ++ toString unmatched.length,
      "❌ Total Unmatched Charges: " ++ toString unmatchedCharges.length,
      "🟢 Total Reimbursements: " ++ toString reimbursements.length,
      "🔁 Total Duplicate Expenses: " ++ toString dupExp.length,
      "🔁 Total Duplicate Statements: " ++ toString dupStmt.length])

/-- Embedding of `reconcile_with_llm` (reconcile_logic.py): the returned
matched list and summary string.  The early branch answers without touching
the oracle. -/
def reconcile_with_llm (oracle : List PRec → List PRec → WResp)
    (expenses statements : List PRec) : List OEntry × String :=
  let validExpenses := expenses.filter fun e => !e.parseFailed
  let parsingFailedExpenses := expenses.filter fun e => e.parseFailed
  let validStatements := statements.filter fun s => !s.parseFailed
  if validExpenses = [] ∨ validStatements = [] then
    ([], "❌ Not enough valid data for LLM reconciliation.")
  else
    let response := oracle validExpenses validStatements
    let unmatchedWithFailed :=
      response.unmatchedExpenses ++ parsingFailedExpenses.map failedUnmatched
    let cleanedUnmatched :=
      unmatchedWithFailed.filter fun e => decide (e ∉ response.duplicatesExpenses)
    (response.matched,
     savingsSummary response.matched cleanedUnmatched response.unmatchedCharges
       response.reimbursements response.duplicatesExpenses response.duplicatesStatements)

/-! ## Count-conservation check (`reconcile_invoices_with_llm`, reconcile_logic.py)

After bucketing, the source computes
`calculated_total_invoices = len(matched) + len(unmatched_invoices) + len(dup_invoices)` and
`calculated_total_statements = len(matched) + len(unmatched_payments) + len(reimbursements) + len(dup_statements)`
and appends a mismatch warning line to the returned summary for each side
whose calculated total disagrees with the count of valid records. -/

def countMismatchLines (totalValidInvoices totalValidStatements matched
    unmatchedInvoices unmatchedPayments reimbursements dupInvoices dupStatements : ℕ) :
    List String :=
  let calculatedTotalInvoices := matched + unmatchedInvoices + dupInvoices
  let calculatedTotalStatements := matched + unmatchedPayments + reimbursements + dupStatements
  (if calculatedTotalInvoices ≠ totalValidInvoices then
      ["⚠️ Invoice Count Mismatch: Expected " ++ toString totalValidInvoices ++
        ", Calculated " ++ toString calculatedTotalInvoices]
    else []) ++
  (if calculatedTotalStatements ≠ totalValidStatements then
      ["⚠️ Statement Count Mismatch: Expected " ++ toString totalValidStatements ++
        ", Calculated " ++ toString calculatedTotalStatements]
    else [])

/-- The totals block of the summary string returned to the caller by
`reconcile_invoices_with_llm`: the aggregate counts followed by any count
mismatch warnings (the per-bucket sections are appended after this block
and cannot remove lines from it). -/
def invoiceSummaryTotals (totalValidInvoices totalValidStatements matched
    unmatchedInvoices unmatchedPayments reimbursements dupInvoices dupStatements : ℕ) :
    List String :=
  ["=== Totals ===",
   "🧾 Total Invoice Entries: " ++ toString totalValidInvoices,
   "🏦 Total Current Account Entries: " ++ toString totalValidStatements,
   "✅ Total Matched Invoices: " ++ toString matched,
   "❌ Total Unmatched Invoices: " ++ toString unmatchedInvoices,
   "❌ Total Unmatched Payments: " ++ toString unmatchedPayments,
   "🟢 Total Reimbursements: " ++ toString reimbursements,
   "🔁 Total Duplicate Invoices: " ++ toString dupInvoices,
   "🔁 Total Duplicate Statement Entries: " ++ toString dupStatements,
   ""] ++
  countMismatchLines totalValidInvoices totalValidStatements matched unmatchedInvoices
    unmatchedPayments reimbursements dupInvoices dupStatements

/-! ## General lemmas about enumerated lists -/

theorem fst_bounds_of_mem_enumFrom {α : Type} :
    ∀ (l : List α) (n : ℕ) (x : ℕ × α), x ∈ List.enumFrom n l → n ≤ x.1 ∧ x.1 < n + l.length := by
  intro l
  induction l with
  | nil => intro n x h; simp [List.enumFrom] at h
  | cons a t ih =>
    intro n x h
    simp only [List.enumFrom, List.mem_cons] at h
    rcases h with rfl | h
    · simp
    · have := ih (n + 1) x h
      simp only [List.length_cons]
      omega

theorem find?_enumFrom_spec {α : Type} (p : ℕ × α → Bool) :
    ∀ (l : List α) (n j : ℕ) (x : α), (List.enumFrom n l).find? p = some (j, x) →
      n ≤ j ∧ l.get? (j - n) = some x ∧ p (j, x) = true ∧
        ∀ k y, n ≤ k → k < j → l.get? (k - n) = some y → p (k, y) = false := by
  intro l
  induction l with
  | nil => intro n j x h; simp [List.enumFrom] at h
  | cons a t ih =>
    intro n j x h
    simp only [List.enumFrom] at h
    rw [List.find?_cons] at h
    cases hpa : p (n, a) with
    | true =>
      rw [hpa] at h
      simp only [Option.some.injEq, Prod.mk.injEq] at h
      obtain ⟨rfl, rfl⟩ := h
      refine ⟨le_refl _, ?_, hpa, ?_⟩
      · simp
      · intro k y hk hkj _
        omega
    | false =>
      rw [hpa] at h
      obtain ⟨h1, h2, h3, h4⟩ := ih (n + 1) j x h
      refine ⟨by omega, ?_, h3, ?_⟩
      · have hj : j - n = (j - (n + 1)) + 1 := by omega
        rw [hj]
        simpa using h2
      · intro k y hk hkj hget
        rcases Nat.eq_or_lt_of_le hk with rfl | hlt
        · have hay : a = y := by simpa using hget
          exact hay ▸ hpa
        · have hk' : k - n = (k - (n + 1)) + 1 := by omega
          rw [hk'] at hget
          exact h4 k y (by omega) hkj (by simpa using hget)

theorem length_filter_add_length_filter_not {α : Type} (l : List α) (p : α → Bool) :
    (l.filter p).length + (l.filter fun a => !(p a)).length = l.length := by
  induction l with
  | nil => simp
  | cons a t ih =>
    by_cases h : p a = true
    · simp [List.filter_cons, h]; omega
    · simp only [Bool.not_eq_true] at h
      simp [List.filter_cons, h]; omega

theorem length_filter_mem_enumFrom {α : Type} :
    ∀ (l : List α) (n : ℕ) (s : Finset ℕ), (∀ k ∈ s, n ≤ k) → (∀ k ∈ s, k < n + l.length) →
      ((List.enumFrom n l).filter fun q => decide (q.1 ∈ s)).length = s.card := by
  intro l
  induction l with
  | nil =>
    intro n s hlo hhi
    have : s = ∅ := by
      apply Finset.eq_empty_of_forall_not_mem
      intro k hk
      have := hlo k hk
      have := hhi k hk
      simp only [List.length_nil] at *
      omega
    subst this
    simp [List.enumFrom]
  | cons a t ih =>
    intro n s hlo hhi
    simp only [List.enumFrom, List.filter_cons]
    have hcongr : ((List.enumFrom (n + 1) t).filter fun q => decide (q.1 ∈ s)) =
        ((List.enumFrom (n + 1) t).filter fun q => decide (q.1 ∈ s.erase n)) := by
      apply List.filter_congr
      intro x hx
      have hb := fst_bounds_of_mem_enumFrom t (n + 1) x hx
      have : x.1 ≠ n := by omega
      simp [Finset.mem_erase, this]
    by_cases hn : n ∈ s
    · have hd : decide (((n, a) : ℕ × α).1 ∈ s) = true := decide_eq_true hn
      rw [hd, if_pos rfl, List.length_cons, hcongr, ih (n + 1) (s.erase n) ?_ ?_]
      · rw [Finset.card_erase_add_one hn]
      · intro k hk
        have hk' := Finset.mem_of_mem_erase hk
        have := hlo k hk'
        have := (Finset.mem_erase.mp hk).1
        omega
      · intro k hk
        have hk' := Finset.mem_of_mem_erase hk
        have := hhi k hk'
        simp only [List.length_cons] at this
        omega
    · have hd : decide (((n, a) : ℕ × α).1 ∈ s) = false := decide_eq_false hn
      rw [hd]
      simp only [Bool.false_eq_true, if_false]
      apply ih (n + 1) s
      · intro k hk
        have := hlo k hk
        rcases Nat.eq_or_lt_of_le this with rfl | h
        · exact absurd hk hn
        · omega
      · intro k hk
        have := hhi k hk
        simp only [List.length_cons] at this
        omega

/-! ## Structural lemmas about the pre-matcher -/

theorem payOk_facts {payIdxs : Finset ℕ} {keys : Finset (ℚ × Option Int × String)}
    {invNo : Option (List Char)} {invAmt : ℚ} {invDate : Int} {window : ℕ}
    {jp : ℕ × PRec} (h : payOk payIdxs keys invNo invAmt invDate window jp = true) :
    jp.1 ∉ payIdxs ∧ payKey jp.2 ∉ keys := by
  unfold payOk at h
  rw [Bool.and_eq_true] at h
  obtain ⟨h1, h2⟩ := h
  refine ⟨of_decide_eq_true h1, ?_⟩
  cases hd : jp.2.date with
  | none => rw [hd] at h2; exact absurd h2 (by simp)
  | some payDate =>
    rw [hd] at h2
    simp only [Bool.and_eq_true, decide_eq_true_eq] at h2
    exact h2.2

/-- Either an outer-loop iteration leaves the state unchanged, or it appends
exactly one matched pair and consumes one invoice index and one fresh
payment index bounded by the payment count. -/
theorem preMatchStep_cases (payments : List PRec) (window : ℕ) (st : PMState)
    (i : ℕ) (inv : PRec) :
    preMatchStep payments window st (i, inv) = st ∨
      ∃ j pay, j < payments.length ∧ j ∉ st.payIdxs ∧
        preMatchStep payments window st (i, inv) =
          ⟨st.pairs ++ [⟨pay.date, pay.amount, pay.description⟩],
           insert i st.invIdxs, insert j st.payIdxs, insert (payKey pay) st.keys⟩ := by
  cases hd : inv.date with
  | none =>
    left
    simp [preMatchStep, hd]
  | some d =>
    cases hf : payments.enum.find?
        (payOk st.payIdxs st.keys (extractInvoiceNo inv.description) inv.amount d window) with
    | none =>
      left
      simp [preMatchStep, hd, hf]
    | some jp =>
      obtain ⟨j, pay⟩ := jp
      right
      refine ⟨j, pay, ?_, ?_, ?_⟩
      · have hmem := List.mem_of_find?_eq_some hf
        have := fst_bounds_of_mem_enumFrom payments 0 (j, pay) (by simpa [List.enum] using hmem)
        simpa using this.2
      · exact (payOk_facts (List.find?_some hf)).1
      · simp [preMatchStep, hd, hf]

/-- Invariant of the outer fold: the matched-pair list, the invoice-index
set and the payment-index set stay equinumerous, invoice indices stay below
the enumeration counter and payment indices below the payment count. -/
theorem preMatch_fold_inv (payments : List PRec) (window : ℕ) :
    ∀ (l : List PRec) (n : ℕ) (st : PMState),
      st.pairs.length = st.invIdxs.card → st.invIdxs.card = st.payIdxs.card →
      (∀ k ∈ st.invIdxs, k < n) → (∀ k ∈ st.payIdxs, k < payments.length) →
      ((List.enumFrom n l).foldl (preMatchStep payments window) st).pairs.length =
          ((List.enumFrom n l).foldl (preMatchStep payments window) st).invIdxs.card ∧
        ((List.enumFrom n l).foldl (preMatchStep payments window) st).invIdxs.card =
          ((List.enumFrom n l).foldl (preMatchStep payments window) st).payIdxs.card ∧
        (∀ k ∈ ((List.enumFrom n l).foldl (preMatchStep payments window) st).invIdxs,
          k < n + l.length) ∧
        (∀ k ∈ ((List.enumFrom n l).foldl (preMatchStep payments window) st).payIdxs,
          k < payments.length) := by
  intro l
  induction l with
  | nil =>
    intro n st h1 h2 h3 h4
    simp only [List.enumFrom, List.foldl_nil, List.length_nil]
    exact ⟨h1, h2, fun k hk => by have := h3 k hk; omega, h4⟩
  | cons a t ih =>
    intro n st h1 h2 h3 h4
    simp only [List.enumFrom, List.foldl_cons, List.length_cons]
    rcases preMatchStep_cases payments window st n a with heq | ⟨j, pay, hj, hjmem, heq⟩
    · rw [heq]
      have := ih (n + 1) st h1 h2 (fun k hk => by have := h3 k hk; omega) h4
      refine ⟨this.1, this.2.1, fun k hk => ?_, this.2.2.2⟩
      have := this.2.2.1 k hk
      omega
    · rw [heq]
      have hni : n ∉ st.invIdxs := fun hmem => by have := h3 n hmem; omega
      have := ih (n + 1)
        ⟨st.pairs ++ [⟨pay.date, pay.amount, pay.description⟩],
         insert n st.invIdxs, insert j st.payIdxs, insert (payKey pay) st.keys⟩
        (by simp [Finset.card_insert_of_not_mem hni, h1])
        (by simp [Finset.card_insert_of_not_mem hni, Finset.card_insert_of_not_mem hjmem, h2])
        (by
          intro k hk
          rcases Finset.mem_insert.mp hk with rfl | hk'
          · omega
          · have := h3 k hk'; omega)
        (by
          intro k hk
          rcases Finset.mem_insert.mp hk with rfl | hk'
          · exact hj
          · exact h4 k hk')
      refine ⟨this.1, this.2.1, fun k hk => ?_, this.2.2.2⟩
      have := this.2.2.1 k hk
      omega

theorem enum_eq_enumFrom {α : Type} (l : List α) : l.enum = List.enumFrom 0 l := rfl

/-- Claim C9: the pre-matcher's five outputs are consistent: the number of
matched pairs equals the number of consumed invoice indices and the number
of consumed payment indices; the unmatched invoice list is exactly the input
invoices at non-consumed indices in input order, likewise for payments; and
the unmatched and matched counts partition each input side, so no record is
dropped or duplicated across the outputs. -/
theorem pre_match_consistent (invoices payments : List PRec) (window : ℕ) :
    (pre_match_invoices_payments invoices payments window).matchedPairs.length =
        (pre_match_invoices_payments invoices payments window).matchedInvoiceIdxs.card ∧
      (pre_match_invoices_payments invoices payments window).matchedPairs.length =
        (pre_match_invoices_payments invoices payments window).matchedPaymentIdxs.card ∧
      (pre_match_invoices_payments invoices payments window).unmatchedInvoices =
        (invoices.enum.filter fun p =>
          decide (p.1 ∉ (pre_match_invoices_payments invoices payments window).matchedInvoiceIdxs)).map
          Prod.snd ∧
      (pre_match_invoices_payments invoices payments window).unmatchedPayments =
        (payments.enum.filter fun p =>
          decide (p.1 ∉ (pre_match_invoices_payments invoices payments window).matchedPaymentIdxs)).map
          Prod.snd ∧
      (pre_match_invoices_payments invoices payments window).unmatchedInvoices.length +
          (pre_match_invoices_payments invoices payments window).matchedPairs.length =
        invoices.length ∧
      (pre_match_invoices_payments invoices payments window).unmatchedPayments.length +
          (pre_match_invoices_payments invoices payments window).matchedPairs.length =
        payments.length := by
  obtain ⟨h1, h2, h3, h4⟩ :=
    preMatch_fold_inv payments window invoices 0 ⟨[], ∅, ∅, ∅⟩ rfl rfl (by simp) (by simp)
  simp only [pre_match_invoices_payments, enum_eq_enumFrom]
  refine ⟨h1, h1.trans h2, trivial, trivial, ?_, ?_⟩
  · rw [List.length_map]
    have hc := length_filter_mem_enumFrom invoices 0
      ((List.enumFrom 0 invoices).foldl (preMatchStep payments window) ⟨[], ∅, ∅, ∅⟩).invIdxs
      (by simp) (by intro k hk; simpa using h3 k hk)
    have hcompl := length_filter_add_length_filter_not (List.enumFrom 0 invoices)
      (fun p => decide (p.1 ∈
        ((List.enumFrom 0 invoices).foldl (preMatchStep payments window) ⟨[], ∅, ∅, ∅⟩).invIdxs))
    have hpred : ((List.enumFrom 0 invoices).filter fun p =>
          decide (p.1 ∉
            ((List.enumFrom 0 invoices).foldl (preMatchStep payments window) ⟨[], ∅, ∅, ∅⟩).invIdxs)) =
        ((List.enumFrom 0 invoices).filter fun p =>
          !(decide (p.1 ∈
            ((List.enumFrom 0 invoices).foldl (preMatchStep payments window) ⟨[], ∅, ∅, ∅⟩).invIdxs))) := by
      simp only [decide_not]
    have hlen : (List.enumFrom 0 invoices).length = invoices.length := by
      simp [List.enumFrom_length]
    rw [hpred]
    omega
  · rw [List.length_map]
    have hc := length_filter_mem_enumFrom payments 0
      ((List.enumFrom 0 invoices).foldl (preMatchStep payments window) ⟨[], ∅, ∅, ∅⟩).payIdxs
      (by simp) (by intro k hk; simpa using h4 k hk)
    have hcompl := length_filter_add_length_filter_not (List.enumFrom 0 payments)
      (fun p => decide (p.1 ∈
        ((List.enumFrom 0 invoices).foldl (preMatchStep payments window) ⟨[], ∅, ∅, ∅⟩).payIdxs))
    have hpred : ((List.enumFrom 0 payments).filter fun p =>
          decide (p.1 ∉
            ((List.enumFrom 0 invoices).foldl (preMatchStep payments window) ⟨[], ∅, ∅, ∅⟩).payIdxs)) =
        ((List.enumFrom 0 payments).filter fun p =>
          !(decide (p.1 ∈
            ((List.enumFrom 0 invoices).foldl (preMatchStep payments window) ⟨[], ∅, ∅, ∅⟩).payIdxs))) := by
      simp only [decide_not]
    have hlen : (List.enumFrom 0 payments).length = payments.length := by
      simp [List.enumFrom_length]
    rw [hpred]
    omega

/-! ## Claim C4: matching order of the pre-matcher -/

/-- The matching predicate as the specification states it (amount within
tolerance, invoice number of the A-side description contained in the B-side
description, dates within the window) — written from the spec for
comparison with the implementation, which additionally suppresses
candidates whose match key repeats an earlier match. -/
def specMatchPred (inv pay : PRec) (window : ℕ) : Bool :=
  match inv.date, pay.date with
  | some d, some pd =>
    amountClose inv.amount pay.amount &&
      (match extractInvoiceNo inv.description with
       | none => false
       | some no => listIsSub no pay.description.data) &&
      decide ((pd - d).natAbs ≤ window)
  | _, _ => false

def c4InvA : PRec := ⟨some 10, "Invoice INV-1", 100, false⟩
def c4InvB : PRec := ⟨some 10, "Invoice INV-1", 100, false⟩
def c4PayA : PRec := ⟨some 10, "Settle INV-1 a", 100, false⟩
def c4PayB : PRec := ⟨some 10, "Settle INV-1 a", 100, false⟩
def c4PayC : PRec := ⟨some 10, "Settle INV-1 b", 100, false⟩

/-- Claim C4 counterexample: when the second invoice is processed, payment 1
is the first not-yet-consumed payment satisfying the matching predicate
(payment 0 was consumed by the first invoice), yet the run consumes payment
indices 0 and 2: the duplicate-key suppression of `matched_desc_set` skips
payment 1 without consuming it, so the invoice is paired with a later
payment than the claim requires. -/
theorem pre_match_not_first_fit :
    specMatchPred c4InvB c4PayB 3 = true ∧
      (pre_match_invoices_payments [c4InvA, c4InvB] [c4PayA, c4PayB, c4PayC] 3).matchedInvoiceIdxs =
        ({0, 1} : Finset ℕ) ∧
      (pre_match_invoices_payments [c4InvA, c4InvB] [c4PayA, c4PayB, c4PayC] 3).matchedPaymentIdxs =
        ({0, 2} : Finset ℕ) := by
  refine ⟨by decide, by decide, by decide⟩

/-- Claim C4 (amended): the pre-matcher is first-fit greedy up to duplicate
suppression.  Whenever an outer-loop iteration changes the state, the
consumed payment is the first (least-index) payment passing `payOk` — not
yet consumed, amount within tolerance, invoice number contained in its
description, date within the window, and match key not already used — every
earlier payment fails `payOk`, and both the invoice index and the payment
index are consumed immediately, the pair being appended at the end of the
matched list. -/
theorem preMatchStep_first_fit (payments : List PRec) (window : ℕ) (st : PMState)
    (i : ℕ) (inv : PRec)
    (h : preMatchStep payments window st (i, inv) ≠ st) :
    ∃ d j pay, inv.date = some d ∧ payments.get? j = some pay ∧
      j ∉ st.payIdxs ∧ payKey pay ∉ st.keys ∧
      payOk st.payIdxs st.keys (extractInvoiceNo inv.description) inv.amount d window
        (j, pay) = true ∧
      (∀ k y, k < j → payments.get? k = some y →
        payOk st.payIdxs st.keys (extractInvoiceNo inv.description) inv.amount d window
          (k, y) = false) ∧
      preMatchStep payments window st (i, inv) =
        ⟨st.pairs ++ [⟨pay.date, pay.amount, pay.description⟩],
         insert i st.invIdxs, insert j st.payIdxs, insert (payKey pay) st.keys⟩ := by
  cases hd : inv.date with
  | none => exact absurd (by simp [preMatchStep, hd]) h
  | some d =>
    cases hf : payments.enum.find?
        (payOk st.payIdxs st.keys (extractInvoiceNo inv.description) inv.amount d window) with
    | none => exact absurd (by simp [preMatchStep, hd, hf]) h
    | some jp =>
      obtain ⟨j, pay⟩ := jp
      obtain ⟨-, hget, hok, hfirst⟩ :=
        find?_enumFrom_spec _ payments 0 j pay (by simpa [enum_eq_enumFrom] using hf)
      have hfacts := payOk_facts hok
      refine ⟨d, j, pay, rfl, by simpa using hget, hfacts.1, hfacts.2, hok, ?_, ?_⟩
      · intro k y hk hgetk
        simpa using hfirst k y (Nat.zero_le k) hk (by simpa using hgetk)
      · simp [preMatchStep, hd, hf]

def c4WitnessState : PMState := ⟨[], ∅, ∅, ∅⟩

/-- Witness for the amended claim C4: a concrete iteration that changes the
state, with the conclusion obtained from the theorem. -/
theorem preMatchStep_first_fit_witness :
    (preMatchStep [c4PayA] 3 c4WitnessState (0, c4InvA) ≠ c4WitnessState) ∧
      (∃ d j pay, c4InvA.date = some d ∧ [c4PayA].get? j = some pay ∧
        j ∉ c4WitnessState.payIdxs ∧ payKey pay ∉ c4WitnessState.keys ∧
        payOk c4WitnessState.payIdxs c4WitnessState.keys
          (extractInvoiceNo c4InvA.description) c4InvA.amount d 3 (j, pay) = true ∧
        (∀ k y, k < j → [c4PayA].get? k = some y →
          payOk c4WitnessState.payIdxs c4WitnessState.keys
            (extractInvoiceNo c4InvA.description) c4InvA.amount d 3 (k, y) = false) ∧
        preMatchStep [c4PayA] 3 c4WitnessState (0, c4InvA) =
          ⟨c4WitnessState.pairs ++ [⟨pay.date, pay.amount, pay.description⟩],
           insert 0 c4WitnessState.invIdxs, insert j c4WitnessState.payIdxs,
           insert (payKey pay) c4WitnessState.keys⟩) :=
  ⟨by decide, preMatchStep_first_fit [c4PayA] 3 c4WitnessState 0 c4InvA (by decide)⟩

/-! ## Claim C1: date tolerance of the pre-matcher -/

def c1Invoice : PRec := ⟨some 1000, "Invoice INV-20250620-996A7766", 27033.29, false⟩

def c1Payment : PRec := ⟨some 1001, "Merchant Settlement INV-20250620-996A7766", 27033.29, false⟩

/-- Claim C1 (code-bug evidence): the deterministic pre-matcher is invoked
with a three-day date window, so the pair of the specification's concrete
scenario 2 — equal amounts, invoice number contained in the settlement
description, dates one day apart — is placed in `matched` and both
unmatched buckets are empty, although the claim (and the LLM prompt inside
the very same function, whose few-shot example is this exact pair) requires
it to be a non-match. -/
theorem pre_match_one_day_gap_matched :
    (pre_match_invoices_payments [c1Invoice] [c1Payment] 3).matchedPairs =
        [⟨some 1001, 27033.29, "Merchant Settlement INV-20250620-996A7766"⟩] ∧
      (pre_match_invoices_payments [c1Invoice] [c1Payment] 3).unmatchedInvoices = [] ∧
      (pre_match_invoices_payments [c1Invoice] [c1Payment] 3).unmatchedPayments = [] := by
  exact ⟨by decide, by decide, by decide⟩

/-! ## Claim C8: the amount predicate boundary -/

theorem ratAbs_eq_abs (q : ℚ) : ratAbs q = |q| := by
  unfold ratAbs
  rcases lt_or_le q 0 with h | h
  · rw [if_pos h, abs_of_neg h]
  · rw [if_neg (not_lt.mpr h), abs_of_nonneg h]

def c8Invoice : PRec := ⟨some 5, "Invoice INV-9", 0.02, false⟩

def c8Payment : PRec := ⟨some 5, "Pay INV-9", 0.01, false⟩

/-- Claim C8 counterexample: a pair whose amounts differ by exactly 0.01
does satisfy the amount guard (the source only skips when the difference
exceeds 0.01), and such a pair is matched by the pre-matcher; the absolute
difference is not below 0.01, refuting the strict-inequality predicate of
the claim.  (For these inputs the double-precision computation of the
source agrees with exact arithmetic: both operands scale a power of two of
the same float, so the subtraction is exact.) -/
theorem amount_predicate_boundary :
    amountClose 0.02 0.01 = true ∧
      (0.02 : ℚ) - 0.01 = 1 / 100 ∧
      ¬(|(0.02 : ℚ) - 0.01| < 1 / 100) ∧
      (pre_match_invoices_payments [c8Invoice] [c8Payment] 3).matchedPairs =
        [⟨some 5, 0.01, "Pay INV-9"⟩] := by
  have h : (0.02 : ℚ) - 0.01 = 1 / 100 := by decide
  refine ⟨by decide, h, ?_, by decide⟩
  rw [h, abs_of_pos (by norm_num : (0 : ℚ) < 1 / 100)]
  exact lt_irrefl _

/-- Claim C8 (amended): the pre-matcher's amount predicate accepts a
candidate pair exactly when the absolute amount difference is at most 0.01
(not strictly below), so a pair differing by exactly one cent satisfies
it. -/
theorem amountClose_iff_le (a b : ℚ) : amountClose a b = true ↔ |a - b| ≤ 1 / 100 := by
  unfold amountClose
  rw [ratAbs_eq_abs]
  simp [not_lt]

/-! ## Claim C2: determinism of the matching operation -/

def oracleNil : List PRec → List PRec → List MPair := fun _ _ => []

def oracleOne : List PRec → List PRec → List MPair :=
  fun _ _ => [⟨some 0, 10, "llm suggestion"⟩]

def c2Invoice : PRec := ⟨some 0, "Invoice INV-5", 10, false⟩

/-- Claim C2 counterexample: with an invoice that the pre-matcher cannot
match, the LLM branch is taken and the returned matched list is whatever
the external model answers — two runs whose LLM responses differ produce
different Match lists for the same inputs in the same order. -/
theorem reconcile_matched_depends_on_llm :
    reconcile_invoices_matched oracleNil [c2Invoice] [] ≠
      reconcile_invoices_matched oracleOne [c2Invoice] [] := by
  decide

/-- Claim C2 (amended): the matching operation is deterministic exactly on
the LLM-free path: whenever the pre-matcher consumes every valid invoice
(or no invoice is left unmatched), the matched list is independent of the
LLM response; the pre-matcher itself is a pure function of its inputs. -/
theorem reconcile_matched_deterministic_when_prematched (invoices statements : List PRec)
    (h : (pre_match_invoices_payments (invoices.filter fun r => !r.parseFailed)
            (statements.filter fun r => !r.parseFailed) 3).matchedPairs.length =
          (invoices.filter fun r => !r.parseFailed).length ∨
        (pre_match_invoices_payments (invoices.filter fun r => !r.parseFailed)
            (statements.filter fun r => !r.parseFailed) 3).unmatchedInvoices = []) :
    ∀ o o' : List PRec → List PRec → List MPair,
      reconcile_invoices_matched o invoices statements =
        reconcile_invoices_matched o' invoices statements := by
  intro o o'
  simp only [reconcile_invoices_matched]
  rw [if_pos h, if_pos h]

/-- Witness for the amended claim C2 at concrete inputs. -/
theorem reconcile_matched_deterministic_witness :
    ((pre_match_invoices_payments (([] : List PRec).filter fun r => !r.parseFailed)
            (([] : List PRec).filter fun r => !r.parseFailed) 3).matchedPairs.length =
          (([] : List PRec).filter fun r => !r.parseFailed).length ∨
        (pre_match_invoices_payments (([] : List PRec).filter fun r => !r.parseFailed)
            (([] : List PRec).filter fun r => !r.parseFailed) 3).unmatchedInvoices = []) ∧
      reconcile_invoices_matched oracleNil [] [] =
        reconcile_invoices_matched oracleOne [] [] :=
  ⟨Or.inl (by decide),
   reconcile_matched_deterministic_when_prematched [] [] (Or.inl (by decide))
     oracleNil oracleOne⟩

/-! ## Claim C3: conservation check is surfaced -/

/-- Claim C3: any violation of count conservation — twice the matched count
plus the unmatched, reimbursement and duplicate counts differing from the
total of valid records on both sides — makes the totals section of the
summary carry at least one mismatch warning line, because the source checks
each side separately and the combined conservation is the sum of the two
per-side checks. -/
theorem count_conservation_surfaced
    (totalValidInvoices totalValidStatements matched unmatchedInvoices unmatchedPayments
      reimbursements dupInvoices dupStatements : ℕ)
    (h : 2 * matched + unmatchedInvoices + unmatchedPayments + reimbursements +
        dupInvoices + dupStatements ≠ totalValidInvoices + totalValidStatements) :
    countMismatchLines totalValidInvoices totalValidStatements matched unmatchedInvoices
        unmatchedPayments reimbursements dupInvoices dupStatements ≠ [] ∧
      ∀ w ∈ countMismatchLines totalValidInvoices totalValidStatements matched
          unmatchedInvoices unmatchedPayments reimbursements dupInvoices dupStatements,
        w ∈ invoiceSummaryTotals totalValidInvoices totalValidStatements matched
          unmatchedInvoices unmatchedPayments reimbursements dupInvoices dupStatements := by
  constructor
  · simp only [countMismatchLines]
    split_ifs with h1 h2 <;> simp_all
    omega
  · intro w hw
    simp only [invoiceSummaryTotals]
    exact List.mem_append_right _ hw

/-- Witness for claim C3: a violated conservation equation at concrete
counts yields a non-empty warning list inside the totals block. -/
theorem count_conservation_surfaced_witness :
    (2 * 0 + 0 + 0 + 0 + 0 + 0 ≠ 1 + 0) ∧
      (countMismatchLines 1 0 0 0 0 0 0 0 ≠ [] ∧
        ∀ w ∈ countMismatchLines 1 0 0 0 0 0 0 0,
          w ∈ invoiceSummaryTotals 1 0 0 0 0 0 0 0) :=
  ⟨by decide, count_conservation_surfaced 1 0 0 0 0 0 0 0 (by decide)⟩

/-! ## Claim C5: amount overwrite policy of the expense accumulator -/

def c5Lines : List String :=
  ["1-Jan-2024", "Meals", "inr 100.00", "inr 200.00", "2-Jan-2024"]

/-- Claim C5 counterexample: two amount-pattern lines (100.00 then 200.00)
occur between two date lines, and the record emitted for that stretch
carries amount 200.00 — the amount detector overwrites unconditionally, so
the last detected amount wins, not the first. -/
theorem expense_amount_not_first_wins :
    amountOfExpense "inr 100.00" = some 100 ∧
      amountOfExpense "inr 200.00" = some 200 ∧
      (extract_expense_data "f.pdf" c5Lines).map (fun e => e.amount) =
        [some 200, some 200] := by
  exact ⟨by decide, by decide, by decide⟩

/-- Claim C5 (amended): in the expense accumulator the LAST amount detected
for the current in-progress record is kept: processing any line on which the
amount pattern matches sets the in-progress amount to that line's amount,
overwriting whatever was held before. -/
theorem expense_amount_last_wins (file line : String) (entries : List ExpEntry)
    (st : ExpState) (q : ℚ) (h : amountOfExpense line = some q) :
    ((expenseStep file (entries, st) line).2).amount = some q := by
  have hsep : line ≠ "PAGE_SEPARATOR" := by
    intro he
    rw [he] at h
    rw [show amountOfExpense "PAGE_SEPARATOR" = none from by decide] at h
    cases h
  simp only [expenseStep, if_neg hsep, h]
  by_cases hd : dateMatchExpense line <;>
    by_cases hc : line ∈ expenseCategories <;>
      simp [hd, hc] <;> split_ifs <;> simp

/-- Witness for the amended claim C5. -/
theorem expense_amount_last_wins_witness :
    amountOfExpense "inr 100.00" = some 100 ∧
      ((expenseStep "f.pdf" ([], initExpState) "inr 100.00").2).amount = some 100 :=
  ⟨by decide,
   expense_amount_last_wins "f.pdf" "inr 100.00" [] initExpState 100 (by decide)⟩

/-! ## Claim C6: behaviour on a new date line -/

def c6Lines : List String := ["1-Jan-2024", "inr 100.00", "2-Jan-2024", "Meals"]

/-- Claim C6 counterexample: at the second date line the in-progress record
(date January 1, a description, amount 100.00, but no category) is
incomplete and is not emitted; yet the single record the run emits — begun
at the second date line, after which no amount line occurs — carries amount
100.00, a field of the discarded partial record, contradicting the claim
that no field of a discarded partial record carries over. -/
theorem expense_discard_carries_fields :
    extract_expense_data "f.pdf" c6Lines =
      [⟨"f.pdf", some ⟨2024, 1, 2⟩, some "2-Jan-2024", some "Meals", some 100, false, ""⟩] := by
  decide

/-- Claim C6 (amended): on a date-matching line, a complete in-progress
record is appended to the output before the new record begins and an
incomplete one is not emitted; but only `extract_statement_entries` resets
every field (its new in-progress state is independent of all previous field
values), while `extract_expense_data` reassigns only `date` and
`description` — the previous `category` persists, and the previous `amount`
persists whenever the date line itself contains no amount pattern. -/
theorem date_line_reset_behaviour (file l : String) (entries : List ExpEntry)
    (st : ExpState) (file2 l2 : String) (e2 e2' : List StmtEntry) (s2 s2' : StmtState)
    (h1 : dateMatchExpense l = true) (h2 : dateMatchStmt l2 = true) :
    ((expenseStep file (entries, st) l).1 =
        (if expenseComplete file st then entries ++ [mkExpEntry file st] else entries)) ∧
      ((expenseStep file (entries, st) l).2.date = parse_date l) ∧
      ((expenseStep file (entries, st) l).2.category =
        (if l ∈ expenseCategories then some l else st.category)) ∧
      ((expenseStep file (entries, st) l).2.amount =
        (match amountOfExpense l with
         | some q => some q
         | none => st.amount)) ∧
      ((stmtStep file2 (e2, s2) l2).1 =
        (if stmtComplete s2 then e2 ++ [mkStmtEntry file2 s2] else e2)) ∧
      ((stmtStep file2 (e2, s2) l2).2 = (stmtStep file2 (e2', s2') l2).2) := by
  have hsep : l ≠ "PAGE_SEPARATOR" := by
    intro he
    rw [he] at h1
    rw [show dateMatchExpense "PAGE_SEPARATOR" = false from by decide] at h1
    cases h1
  refine ⟨?_, ?_, ?_, ?_, ?_, ?_⟩
  · simp only [expenseStep, if_neg hsep, h1, if_true]
  · simp only [expenseStep, if_neg hsep, h1, if_true]
    cases ha : amountOfExpense l <;>
      by_cases hc : l ∈ expenseCategories <;>
        simp [ha, hc] <;> split_ifs <;> simp
  · simp only [expenseStep, if_neg hsep, h1, if_true]
    cases ha : amountOfExpense l <;>
      by_cases hc : l ∈ expenseCategories <;>
        simp [ha, hc] <;> split_ifs <;> simp
  · simp only [expenseStep, if_neg hsep, h1, if_true]
    cases ha : amountOfExpense l <;>
      by_cases hc : l ∈ expenseCategories <;>
        simp [ha, hc] <;> split_ifs <;> simp
  · simp only [stmtStep, h2, if_true]
  · simp only [stmtStep, h2, if_true]

def c6ExpStateW : ExpState := ⟨some ⟨2024, 1, 1⟩, some "d", none, some 100⟩

def c6StmtStateW : StmtState := ⟨some ⟨2023, 5, 5⟩, some "x", some "y", some "z", some 7⟩

/-- Witness for the amended claim C6 at concrete inputs. -/
theorem date_line_reset_behaviour_witness :
    (dateMatchExpense "2-Jan-2024" = true ∧ dateMatchStmt "2-Jan-2024" = true) ∧
      (((expenseStep "f.pdf" ([], c6ExpStateW) "2-Jan-2024").1 =
        (if expenseComplete "f.pdf" c6ExpStateW
          then [] ++ [mkExpEntry "f.pdf" c6ExpStateW] else [])) ∧
        ((expenseStep "f.pdf" ([], c6ExpStateW) "2-Jan-2024").2.date =
          parse_date "2-Jan-2024") ∧
        ((expenseStep "f.pdf" ([], c6ExpStateW) "2-Jan-2024").2.category =
          (if "2-Jan-2024" ∈ expenseCategories then some "2-Jan-2024"
            else c6ExpStateW.category)) ∧
        ((expenseStep "f.pdf" ([], c6ExpStateW) "2-Jan-2024").2.amount =
          (match amountOfExpense "2-Jan-2024" with
           | some q => some q
           | none => c6ExpStateW.amount)) ∧
        ((stmtStep "s.pdf" ([], initStmtState) "2-Jan-2024").1 =
          (if stmtComplete initStmtState
            then [] ++ [mkStmtEntry "s.pdf" initStmtState] else [])) ∧
        ((stmtStep "s.pdf" ([], initStmtState) "2-Jan-2024").2 =
          (stmtStep "s.pdf" ([], c6StmtStateW) "2-Jan-2024").2)) :=
  ⟨⟨by decide, by decide⟩,
   date_line_reset_behaviour "f.pdf" "2-Jan-2024" [] c6ExpStateW "s.pdf" "2-Jan-2024"
     [] [] initStmtState c6StmtStateW (by decide) (by decide)⟩

/-! ## Claim C7: empty-input guard of the savings reconciliation -/

/-- Claim C7: when either side has zero valid (non-parse-failed) records,
the reconciliation returns an empty matched list together with the
not-enough-data message as an ordinary value — for every LLM oracle, so the
matcher is never consulted, and the embedding is a total function, so no
exception is involved. -/
theorem reconcile_with_llm_not_enough_data (oracle : List PRec → List PRec → WResp)
    (expenses statements : List PRec)
    (h : expenses.filter (fun e => !e.parseFailed) = [] ∨
      statements.filter (fun s => !s.parseFailed) = []) :
    reconcile_with_llm oracle expenses statements =
      ([], "❌ Not enough valid data for LLM reconciliation.") := by
  simp only [reconcile_with_llm]
  rw [if_pos h]

def wOracle : List PRec → List PRec → WResp := fun _ _ => ⟨[], [], [], [], [], []⟩

def c7FailedExpense : PRec := ⟨none, "broken bill", 0, true⟩

def c7Statement : PRec := ⟨some 1, "deposit", 5, false⟩

/-- Witness for claim C7: one parse-failed expense against one valid
statement triggers the guard. -/
theorem reconcile_with_llm_not_enough_data_witness :
    ([c7FailedExpense].filter (fun e => !e.parseFailed) = [] ∨
        [c7Statement].filter (fun s => !s.parseFailed) = []) ∧
      reconcile_with_llm wOracle [c7FailedExpense] [c7Statement] =
        ([], "❌ Not enough valid data for LLM reconciliation.") :=
  ⟨Or.inl (by decide),
   reconcile_with_llm_not_enough_data wOracle [c7FailedExpense] [c7Statement]
     (Or.inl (by decide))⟩

/-! ## Claim C10: zero amounts and the two S3 completeness tests -/

theorem ratTruthy_ne_zero {a : Option ℚ} (h : ratTruthy a = true) : a ≠ some 0 := by
  cases a with
  | none => simp [ratTruthy] at h
  | some q =>
    simp only [ratTruthy] at h
    intro he
    rw [Option.some.injEq] at he
    subst he
    simp at h

theorem s3_expense_fold_amount :
    ∀ (lines : List String) (file : String) (acc : List S3ExpEntry × S3ExpState),
      (∀ e ∈ acc.1, e.parseFailed = false → e.amount ≠ some 0) →
      ∀ e ∈ (lines.foldl (s3ExpenseStep file) acc).1, e.parseFailed = false →
        e.amount ≠ some 0 := by
  intro lines
  induction lines with
  | nil => intro file acc h; simpa using h
  | cons l t ih =>
    intro file acc h
    rw [List.foldl_cons]
    apply ih
    intro e he hpf
    simp only [s3ExpenseStep] at he
    by_cases hcomp : s3ExpComplete (s3ExpFieldUpdate acc.2 l) = true
    · rw [if_pos hcomp] at he
      simp only at he
      rw [List.mem_append] at he
      rcases he with he | he
      · exact h e he hpf
      · simp only [List.mem_singleton] at he
        subst he
        simp only [s3ExpComplete, Bool.and_eq_true] at hcomp
        exact ratTruthy_ne_zero hcomp.2
    · rw [if_neg hcomp] at he
      exact h e he hpf

def c10StmtLines : List String := ["1-Jan-2024", "Lunch", "Cash", "debit", "0.00"]

/-- Claim C10: the S3 expense accumulator never emits a (non-parse-failed)
record with amount 0.00, because its completeness test uses truthiness of
the amount; the S3 statement accumulator tests only that the amount is
present, and a concrete run emits a record whose amount is 0.0. -/
theorem s3_zero_amount_asymmetry :
    (∀ (file : String) (lines : List String) (e : S3ExpEntry),
        e ∈ extract_expense_data_from_s3 file lines → e.parseFailed = false →
          e.amount ≠ some 0) ∧
      extract_statement_entries_from_s3 "s.pdf" c10StmtLines =
        [⟨some ⟨2024, 1, 1⟩, some "Lunch", some "Cash", some "debit", some 0, false, "", ""⟩] := by
  constructor
  · intro file lines e he hpf
    simp only [extract_expense_data_from_s3] at he
    split at he
    · simp only [List.mem_singleton] at he
      subst he
      cases hpf
    · exact s3_expense_fold_amount lines file ([], ⟨none, none, none, none⟩)
        (by intro e he'; cases he') e he hpf
  · decide

def c10ExpLines : List String := ["1-Jan-2024", "Lunch", "Meals", "inr 50.00"]

def c10Entry : S3ExpEntry := ⟨"e.pdf", some ⟨2024, 1, 1⟩, some "Lunch", some "Meals", some 50, false, ""⟩

/-- Witness for claim C10: a concrete emitted S3 expense record has a
non-zero amount. -/
theorem s3_zero_amount_asymmetry_witness :
    c10Entry ∈ extract_expense_data_from_s3 "e.pdf" c10ExpLines ∧
      c10Entry.amount ≠ some 0 :=
  ⟨by decide,
   s3_zero_amount_asymmetry.1 "e.pdf" c10ExpLines c10Entry (by decide) (by decide)⟩

end Paci
